import Mathlib

/-!
Shallow embedding of the mrelo rating library (src/mrelo): the Elo rating
pipeline (elo.py), the season replay and the fitness evaluation of the
optimizer (optimizer.py), and the hyperparameter search space
(hyperparams.py).  Python floats are modelled as real numbers; Python
exceptions are modelled with an `Except PyError` result type; the partial
configuration dict keyed by `Params` is modelled as a structure of twelve
optional real fields.
-/

namespace Mrelo

/-- Python exceptions that the embedded code can raise. -/
inductive PyError
  | overflowError
  | zeroDivisionError
  | keyError
  | typeError
deriving DecidableEq

/-- Configuration dict keyed by hyperparams.Params: a partial mapping from the
twelve hyperparameters to numeric values.  A `none` field is a key absent from
the dict. -/
structure Cfg where
  start : Option ℝ
  elo_avg : Option ℝ
  revert : Option ℝ
  rest_mul : Option ℝ
  hfa_mod : Option ℝ
  k_start : Option ℝ
  k_end : Option ℝ
  k_rate : Option ℝ
  ac_mul : Option ℝ
  ac_mod : Option ℝ
  mov_mul : Option ℝ
  mov_mod : Option ℝ

/-- elo.py elo_probability: expected score of team1 given the rating
difference, 1 / (10^(-diff/400) + 1). -/
noncomputable def elo_probability (rating_diff : ℝ) : ℝ :=
  1 / ((10 : ℝ) ^ (-rating_diff / 400) + 1)

/-- elo.py shift_elo_pre: pre-match rating shift (season-start mean
reversion).  The games-played argument is an optional integer because Python
allows passing None; evaluating the condition `n > 0 or n is None` on None
raises TypeError (`None > 0` is evaluated first).  When `elo_avg` is in the
cfg, looking up `revert` raises KeyError if that key is missing. -/
noncomputable def shift_elo_pre (elo_pre : ℝ) (n : Option ℤ) (cfg : Cfg) :
    Except PyError ℝ :=
  match n with
  | none => .error .typeError
  | some m =>
    if 0 < m then .ok 0
    else
      match cfg.elo_avg with
      | none => .ok 0
      | some avg =>
        match cfg.revert with
        | none => .error .keyError
        | some rv => .ok ((avg * rv + elo_pre * (1 - rv)) - elo_pre)

/-- elo.py calc_pre_diff: pre-match rating differential, base
`elo_pre1 - elo_pre2`, plus home-field advantage when present and the game is
not neutral, plus the rest multiplier term when present. -/
def calc_pre_diff (elo_pre1 elo_pre2 : ℝ) (rest1 rest2 : ℤ)
    (is_neutral : Bool) (cfg : Cfg) : ℝ :=
  let d1 := elo_pre1 - elo_pre2
  let d2 :=
    if is_neutral = false then
      match cfg.hfa_mod with
      | some h => d1 + h
      | none => d1
    else d1
  match cfg.rest_mul with
  | some m => d2 + m * ((rest1 : ℝ) - (rest2 : ℝ))
  | none => d2

/-- elo.py shift_elo_post: post-match rating shift.  A zero autocorrelation
denominator raises ZeroDivisionError; a cfg holding `ac_mod` without `ac_mul`,
or `mov_mul` without `mov_mod`, or missing `k_start`, or needing an absent
`k_end`, raises KeyError, in the evaluation order of the source. -/
noncomputable def shift_elo_post (rating_diff mov : ℝ) (n1 n2 : ℤ) (cfg : Cfg)
    (ac_mov_log : Bool) : Except PyError ℝ :=
  let winner_r_diff : ℝ :=
    if 0 < mov then rating_diff else if mov = 0 then 0 else -rating_diff
  let acStep : Except PyError ℝ :=
    match cfg.ac_mod with
    | none => .ok 1
    | some acm =>
      match cfg.ac_mul with
      | none => .error .keyError
      | some acu =>
        if winner_r_diff * acu + acm = 0 then .error .zeroDivisionError
        else .ok (acm / (winner_r_diff * acu + acm))
  match acStep with
  | .error e => .error e
  | .ok ac_adj =>
    let movStep : Except PyError ℝ :=
      match cfg.mov_mul with
      | none => .ok 1
      | some mm =>
        match cfg.mov_mod with
        | none => .error .keyError
        | some md =>
          if ac_mov_log then .ok (mm * Real.log (max |mov| 1) + md)
          else .ok ((mov + md) ^ mm)
    match movStep with
    | .error e => .error e
    | .ok mov_mult =>
      let win_prob1 := elo_probability rating_diff
      let win1 : ℝ := if 0 < mov then 1 else 0
      let expectation_adj := win1 - win_prob1
      match cfg.k_start with
      | none => .error .keyError
      | some ks =>
        let kStep : Except PyError ℝ :=
          match cfg.k_rate with
          | none => .ok ks
          | some kr =>
            if ((n1 : ℝ) + (n2 : ℝ)) / 2 ≤ kr then .ok ks
            else
              match cfg.k_end with
              | none => .error .keyError
              | some ke => .ok ke
        match kStep with
        | .error e => .error e
        | .ok k => .ok (k * expectation_adj * mov_mult * ac_adj)

/-- Result tuple of calc_elo:
(elo_pre1, elo_pre2, elo_post1, elo_post2, elo_prob1). -/
abbrev EloRes := ℝ × ℝ × ℝ × ℝ × ℝ

/-- elo.py calc_elo: the all-in-one pipeline.  The margin of victory is an
optional real; `none` models a float NaN (for which the source's
`mov and not math.isnan(mov)` guard is false, as it also is for `mov == 0`). -/
noncomputable def calc_elo (cfg : Cfg) (elo_pre1 elo_pre2 : ℝ)
    (mov : Option ℝ) (n1 n2 : ℤ) (rest1 rest2 : ℤ) (neutral : Bool) :
    Except PyError EloRes :=
  match shift_elo_pre elo_pre1 (some n1) cfg with
  | .error e => .error e
  | .ok s1 =>
    match shift_elo_pre elo_pre2 (some n2) cfg with
    | .error e => .error e
    | .ok s2 =>
      let p1 := elo_pre1 + s1
      let p2 := elo_pre2 + s2
      let pre_diff := calc_pre_diff p1 p2 rest1 rest2 neutral cfg
      let postStep : Except PyError ℝ :=
        match mov with
        | none => .ok 0
        | some m => if m = 0 then .ok 0 else shift_elo_post pre_diff m n1 n2 cfg true
      match postStep with
      | .error e => .error e
      | .ok post_shift =>
        .ok (p1, p2, p1 + post_shift, p2 - post_shift, elo_probability pre_diff)

/-- One row of the input DataFrame of optimizer.py: the nine columns consumed
by the replay plus the actual-outcome column win1 used by the fitness
function.  Team identifiers are naturals; scores are optional reals so a NaN
score (hence a NaN margin) is representable. -/
structure Row where
  team1 : ℕ
  team2 : ℕ
  score1 : Option ℝ
  score2 : Option ℝ
  played1 : ℤ
  played2 : ℤ
  rest1 : ℤ
  rest2 : ℤ
  neutral : Bool
  win1 : ℝ

/-- Float subtraction where `none` models NaN: NaN propagates. -/
def fsub : Option ℝ → Option ℝ → Option ℝ
  | some a, some b => some (a - b)
  | _, _ => none

/-- Loop body of optimizer.py enrich_elo_vec: fold calc_elo over the rows,
threading the team-rating table (the team_elos dict, modelled as a total map
from team id to rating) and collecting the result tuples. -/
noncomputable def enrichLoop (cfg : Cfg) (st : ℕ → ℝ) :
    List Row → Except PyError (List EloRes)
  | [] => .ok []
  | row :: rest =>
    match calc_elo cfg (st row.team1) (st row.team2)
        (fsub row.score1 row.score2) row.played1 row.played2
        row.rest1 row.rest2 row.neutral with
    | .error e => .error e
    | .ok r =>
      match enrichLoop cfg
          (fun t => if t = row.team2 then r.2.2.2.1
                    else if t = row.team1 then r.2.2.1 else st t) rest with
      | .error e => .error e
      | .ok rs => .ok (r :: rs)

/-- optimizer.py enrich_elo_vec: initialize every team's rating to
cfg[Params.start] (KeyError when absent), then run the plain loop. -/
noncomputable def enrich_elo_vec (df : List Row) (cfg : Cfg) :
    Except PyError (List EloRes) :=
  match cfg.start with
  | none => .error .keyError
  | some s => enrichLoop cfg (fun _ => s) df

/-- Value accumulated by itertools.accumulate inside optimizer.py enrich_elo:
either the padded bogey first row or a computed elo result tuple. -/
inductive AccVal
  | row : Row → AccVal
  | res : EloRes → AccVal

/-- optimizer.py stateful_enricher's wrapped closure: ignores the accumulated
value, computes calc_elo for the incoming row, and mutates the team-rating
table (modelled by returning the updated map). -/
noncomputable def stateful_enricher (cfg : Cfg) (st : ℕ → ℝ) (acc : AccVal)
    (row : Row) : Except PyError ((ℕ → ℝ) × AccVal) :=
  match acc, calc_elo cfg (st row.team1) (st row.team2)
      (fsub row.score1 row.score2) row.played1 row.played2
      row.rest1 row.rest2 row.neutral with
  | _, .error e => .error e
  | _, .ok r =>
    .ok (fun t => if t = row.team2 then r.2.2.2.1
                  else if t = row.team1 then r.2.2.1 else st t, .res r)

/-- itertools.accumulate over the padded row list with the stateful enricher:
yields the initial accumulated value followed by each step's result, stopping
at the first raised exception. -/
noncomputable def accumulateElo (cfg : Cfg) (st : ℕ → ℝ) (acc : AccVal) :
    List Row → Except PyError (List AccVal)
  | [] => .ok [acc]
  | row :: rest =>
    match stateful_enricher cfg st acc row with
    | .error e => .error e
    | .ok (st', b) =>
      match accumulateElo cfg st' b rest with
      | .error e => .error e
      | .ok out => .ok (acc :: out)

/-- All-zeros bogey row prepended by enrich_elo so that the accumulator
processes every real row. -/
noncomputable def bogeyRow : Row := ⟨0, 0, some 0, some 0, 0, 0, 0, 0, false, 0⟩

/-- Projection of an accumulated value to an elo result tuple. -/
def toRes : AccVal → Option EloRes
  | .res r => some r
  | .row _ => none

/-- optimizer.py enrich_elo: initialize team ratings to cfg[Params.start]
(KeyError when absent), accumulate over the bogey-padded rows, drop the bogey
first item, and keep the result tuples. -/
noncomputable def enrich_elo (df : List Row) (cfg : Cfg) :
    Except PyError (List EloRes) :=
  match cfg.start with
  | none => .error .keyError
  | some s =>
    match accumulateElo cfg (fun _ => s) (.row bogeyRow) df with
    | .error e => .error e
    | .ok out => .ok ((out.drop 1).filterMap toRes)

/-- Arithmetic mean of a list, with Python-style float division modelled by
Lean's total division (an empty list yields 0). -/
noncomputable def mean (xs : List ℝ) : ℝ := xs.sum / xs.length

/-- Mean squared error between outcomes and predictions, the Brier score of
optimizer.py brier_skill_score. -/
noncomputable def brier (ys ps : List ℝ) : ℝ :=
  mean (List.zipWith (fun y p => (y - p) ^ 2) ys ps)

/-- Model of sklearn metrics.r2_score as used by the fitness function.  The
repository's own brier_skill_score (optimizer.py) documents that with no
reference predictions it equals r2_score: 1 minus the ratio of the Brier
score to the Brier score of the constant mean-outcome prediction. -/
noncomputable def r2_score (ys ps : List ℝ) : ℝ :=
  1 - brier ys ps / brier ys (ys.map (fun _ => mean ys))

/-- Model of sklearn metrics.log_loss: negative mean binary cross-entropy. -/
noncomputable def log_loss (ys ps : List ℝ) : ℝ :=
  -(mean (List.zipWith
      (fun y p => y * Real.log p + (1 - y) * Real.log (1 - p)) ys ps))

/-- Rounding of a predicted probability to the nearer integer, modelling the
numpy round applied to elo_prob1 before the accuracy score. -/
noncomputable def pyRound (x : ℝ) : ℝ := ⌊x + 1 / 2⌋

/-- Model of sklearn metrics.accuracy_score: fraction of exact matches. -/
noncomputable def accuracy_score (ys ps : List ℝ) : ℝ :=
  mean (List.zipWith (fun y p => if y = p then (1 : ℝ) else 0) ys ps)

/-- The model._best dict of optimizer.py: always holds a score (initialized to
negative infinity, the bottom of `WithBot ℝ`), and after the first improvement
also the diagnostic scores (r2, log-loss, accuracy). -/
structure BestDict where
  score : WithBot ℝ
  diag : Option (ℝ × ℝ × ℝ)

/-- The meta attributes attached to the optimizer model in optimizer.py
(ModelMeta / the attributes set on the pygad GA object): evaluation counter,
valid-evaluation counter, best scores dict, best configuration, dataset. -/
structure ModelMeta where
  i : ℕ
  valid : ℕ
  best : BestDict
  best_config : Option Cfg
  data : List Row

/-- optimizer.py fitness_func (as produced by fitness_func_wrapper over a
forecaster): bump the evaluation counter, run the forecaster, turn an
OverflowError into a negative-infinity score (any other exception
propagates), score the predictions with r2, and on strict improvement record
the diagnostic scores and the configuration as the new best.  Returns the
updated model state together with the returned score or raised exception. -/
noncomputable def fitness_func
    (forecaster : List Row → Cfg → Except PyError (List EloRes))
    (model : ModelMeta) (solution : Cfg) :
    ModelMeta × Except PyError (WithBot ℝ) :=
  let df := model.data
  let m1 : ModelMeta := ⟨model.i + 1, model.valid, model.best,
    model.best_config, model.data⟩
  match forecaster df solution with
  | .error .overflowError => (m1, .ok ⊥)
  | .error e => (m1, .error e)
  | .ok results =>
    let m2 : ModelMeta := ⟨m1.i, m1.valid + 1, m1.best, m1.best_config,
      m1.data⟩
    let elo_prob1 := results.map (fun r => r.2.2.2.2)
    let score := r2_score (df.map Row.win1) elo_prob1
    if m2.best.score < (score : WithBot ℝ) then
      let scores : BestDict :=
        ⟨(score : WithBot ℝ),
         some (score, log_loss (df.map Row.win1) elo_prob1,
           accuracy_score (df.map Row.win1) (elo_prob1.map pyRound))⟩
      (⟨m2.i, m2.valid, scores, some solution, m2.data⟩, .ok (score : WithBot ℝ))
    else (m2, .ok (score : WithBot ℝ))

/-- The evaluation loop of optimizer.py random_optimize (its `for` loop over
generations), with the randomly drawn configurations supplied as a list:
repeatedly apply fitness_func with enrich_elo as the forecaster, threading
the model state. -/
noncomputable def runEvals
    (forecaster : List Row → Cfg → Except PyError (List EloRes))
    (model : ModelMeta) : List Cfg → ModelMeta
  | [] => model
  | c :: cs => runEvals forecaster (fitness_func forecaster model c).1 cs

/-- Numeric search range of one hyperparameter, hyperparams.py space_dict. -/
structure Space where
  low : ℚ
  high : ℚ
  step : ℚ
deriving DecidableEq

/-- The twelve hyperparameter ranges declared in hyperparams.py Params, in
index order: start, elo_avg, revert, rest_mul, hfa_mod, k_start, k_end,
k_rate, ac_mul, ac_mod, mov_mul, mov_mod. -/
def paramSpaces : List Space :=
  [⟨800, 1500, 5⟩, ⟨900, 1700, 5⟩, ⟨0.05, 0.55, 0.01⟩,
   ⟨-25, 25, 0.25⟩, ⟨-20, 120, 0.5⟩, ⟨2, 60, 1⟩, ⟨2, 60, 1⟩, ⟨4, 20, 1⟩,
   ⟨0.001, 0.01, 0.001⟩, ⟨3.5, 12, 0.25⟩, ⟨0.05, 0.95, 0.025⟩, ⟨0, 2, 0.2⟩]

/-- Number of elements of numpy.arange(low, high, step): the ceiling of
(high - low) / step, clamped at zero. -/
def arangeLen (low high step : ℚ) : ℕ := (⌈(high - low) / step⌉).toNat

/-- numpy.arange(low, high, step) as used by random_optimize to discretize a
gene space: low, low + step, ..., stopping before high. -/
def arange (low high step : ℚ) : List ℚ :=
  (List.range (arangeLen low high step)).map
    (fun k : ℕ => low + (k : ℚ) * step)

/-- The empty configuration dict. -/
noncomputable def cfgNone : Cfg :=
  ⟨none, none, none, none, none, none, none, none, none, none, none, none⟩

/-- Configuration holding only k_start = 10. -/
noncomputable def cfgK10 : Cfg :=
  ⟨none, none, none, none, none, some 10, none, none, none, none, none, none⟩

/-- Configuration holding elo_avg = 1000 and revert = 1/2. -/
noncomputable def cfgPre : Cfg :=
  ⟨none, some 1000, some (1 / 2), none, none, none, none, none, none, none,
   none, none⟩

/-- Configuration holding elo_avg = 500 with revert absent. -/
noncomputable def cfgRevMissing : Cfg :=
  ⟨none, some 500, none, none, none, none, none, none, none, none, none, none⟩

/-- Configuration holding hfa_mod = 10 and rest_mul = 5. -/
noncomputable def cfgHfaRest : Cfg :=
  ⟨none, none, none, some 5, some 10, none, none, none, none, none, none, none⟩

/-- Configuration driving the autocorrelation denominator to zero on the row
of df1: start = 1000, hfa_mod = -1, k_start = 10, ac_mul = 1, ac_mod = 1. -/
noncomputable def cfgBad : Cfg :=
  ⟨some 1000, none, none, none, some (-1), some 10, none, none, some 1, some 1,
   none, none⟩

/-- One-match dataset: team 0 hosts team 1 and wins 2 to 0, both teams having
one game played. -/
noncomputable def df1 : List Row := [⟨0, 1, some 2, some 0, 1, 1, 0, 0, false, 1⟩]

/-- Fresh optimizer model state over df1, with best score negative
infinity. -/
noncomputable def model0 : ModelMeta := ⟨0, 0, ⟨⊥, none⟩, none, df1⟩

/-! Helper lemmas. -/

/-- Powers of ten are positive. -/
lemma ten_rpow_pos (x : ℝ) : 0 < (10 : ℝ) ^ x :=
  Real.rpow_pos_of_pos (by norm_num) x

/-- The logistic combination identity behind the symmetry of
elo_probability. -/
lemma one_div_add_one_symm (a b : ℝ) (ha : 0 < a) (hb : 0 < b)
    (hab : a * b = 1) : 1 / (a + 1) + 1 / (b + 1) = 1 := by
  have ha1 : a + 1 ≠ 0 := by linarith
  have hb1 : b + 1 ≠ 0 := by linarith
  field_simp
  nlinarith [hab]

/-- elo_probability at zero difference is one half. -/
lemma elo_probability_zero : elo_probability 0 = 1 / 2 := by
  unfold elo_probability
  norm_num

/-- elo_probability is strictly positive. -/
lemma elo_probability_pos (d : ℝ) : 0 < elo_probability d := by
  have h := ten_rpow_pos (-d / 400)
  unfold elo_probability
  positivity

/-- elo_probability is strictly below one. -/
lemma elo_probability_lt_one (d : ℝ) : elo_probability d < 1 := by
  have h := ten_rpow_pos (-d / 400)
  unfold elo_probability
  rw [div_lt_one (by linarith)]
  linarith

/-- elo_probability is symmetric: opposite differences give complementary
probabilities. -/
lemma elo_probability_symm (d : ℝ) :
    elo_probability d + elo_probability (-d) = 1 := by
  have ha := ten_rpow_pos (-d / 400)
  have hb := ten_rpow_pos (d / 400)
  have hab : (10 : ℝ) ^ (-d / 400) * (10 : ℝ) ^ (d / 400) = 1 := by
    rw [← Real.rpow_add (by norm_num : (0 : ℝ) < 10)]
    have hz : -d / 400 + d / 400 = 0 := by ring
    rw [hz, Real.rpow_zero]
  have h2 : -(-d) / 400 = d / 400 := by ring
  unfold elo_probability
  rw [h2]
  exact one_div_add_one_symm _ _ ha hb hab

/-- Any successful calc_elo result has the shape
(p1', p2', p1' + s, p2' - s, prob) for a single shift s, with s = 0 when the
margin is NaN or zero. -/
lemma calc_elo_ok_shape (cfg : Cfg) (p1 p2 : ℝ) (mov : Option ℝ)
    (n1 n2 r1 r2 : ℤ) (nt : Bool) (a b c d pr : ℝ)
    (h : calc_elo cfg p1 p2 mov n1 n2 r1 r2 nt = .ok (a, b, c, d, pr)) :
    ∃ s : ℝ, c = a + s ∧ d = b - s ∧
      ((mov = none ∨ mov = some 0) → s = 0) := by
  unfold calc_elo at h
  split at h
  · exact absurd h (by simp)
  split at h
  · exact absurd h (by simp)
  rename_i s1 hs1 s2 hs2
  match hm : mov with
  | none =>
    simp only [Except.ok.injEq, Prod.mk.injEq] at h
    obtain ⟨ha, hb, hc, hd, hpr⟩ := h
    exact ⟨0, by linarith, by linarith, fun _ => rfl⟩
  | some m =>
    by_cases hm0 : m = 0
    · simp only [hm0, if_pos, Except.ok.injEq, Prod.mk.injEq] at h
      obtain ⟨ha, hb, hc, hd, hpr⟩ := h
      exact ⟨0, by linarith, by linarith, fun _ => rfl⟩
    · simp only [if_neg hm0] at h
      split at h
      · exact absurd h (by simp)
      rename_i sh hsh
      simp only [Except.ok.injEq, Prod.mk.injEq] at h
      obtain ⟨ha, hb, hc, hd, hpr⟩ := h
      refine ⟨sh, by linarith, by linarith, ?_⟩
      intro hmov
      rcases hmov with h' | h'
      · exact absurd h' (by simp)
      · rw [Option.some.injEq] at h'
        exact absurd h' hm0

/-- The accumulate-based traversal equals the plain loop: it yields the
initial accumulated value followed by the loop's results, with the same
threaded team-rating state and the same raised exception, if any. -/
lemma accumulateElo_eq_loop (cfg : Cfg) :
    ∀ (rows : List Row) (st : ℕ → ℝ) (acc : AccVal),
      accumulateElo cfg st acc rows =
        match enrichLoop cfg st rows with
        | .error e => .error e
        | .ok rs => .ok (acc :: rs.map AccVal.res) := by
  intro rows
  induction rows with
  | nil =>
    intro st acc
    rfl
  | cons row rest ih =>
    intro st acc
    unfold accumulateElo enrichLoop stateful_enricher
    cases hr : calc_elo cfg (st row.team1) (st row.team2)
        (fsub row.score1 row.score2) row.played1 row.played2
        row.rest1 row.rest2 row.neutral with
    | error e => rfl
    | ok r =>
      dsimp only
      rw [ih]
      cases h2 : enrichLoop cfg
          (fun t => if t = row.team2 then r.2.2.2.1
                    else if t = row.team1 then r.2.2.1 else st t) rest with
      | error e => rfl
      | ok rs => rfl

/-- Projecting accumulated values back out of their wrapper is the
identity. -/
lemma filterMap_toRes_res (rs : List EloRes) :
    List.filterMap toRes (rs.map AccVal.res) = rs := by
  induction rs with
  | nil => rfl
  | cons r rs ih => simp [List.filterMap_cons, toRes, ih]

/-- The two replay entry points agree on every dataset and configuration. -/
lemma enrich_elo_eq_vec (df : List Row) (cfg : Cfg) :
    enrich_elo df cfg = enrich_elo_vec df cfg := by
  unfold enrich_elo enrich_elo_vec
  cases hs : cfg.start with
  | none => rfl
  | some s =>
    dsimp only
    rw [accumulateElo_eq_loop]
    cases h : enrichLoop cfg (fun _ => s) df with
    | error e => rfl
    | ok rs =>
      dsimp only
      simp only [List.drop_succ_cons, List.drop_zero, filterMap_toRes_res]

/-- Every result of the plain replay loop is zero-sum. -/
lemma enrichLoop_zero_sum (cfg : Cfg) :
    ∀ (rows : List Row) (st : ℕ → ℝ) (rs : List EloRes),
      enrichLoop cfg st rows = .ok rs →
      ∀ r ∈ rs, r.2.2.1 - r.1 = -(r.2.2.2.1 - r.2.1) := by
  intro rows
  induction rows with
  | nil =>
    intro st rs h r hr
    unfold enrichLoop at h
    simp only [Except.ok.injEq] at h
    subst h
    cases hr
  | cons row rest ih =>
    intro st rs h r hr
    unfold enrichLoop at h
    cases hc : calc_elo cfg (st row.team1) (st row.team2)
        (fsub row.score1 row.score2) row.played1 row.played2
        row.rest1 row.rest2 row.neutral with
    | error e =>
      rw [hc] at h
      exact absurd h (by simp)
    | ok r0 =>
      rw [hc] at h
      dsimp only at h
      cases h2 : enrichLoop cfg
          (fun t => if t = row.team2 then r0.2.2.2.1
                    else if t = row.team1 then r0.2.2.1 else st t) rest with
      | error e =>
        rw [h2] at h
        exact absurd h (by simp)
      | ok rs0 =>
        rw [h2] at h
        simp only [Except.ok.injEq] at h
        subst h
        rw [List.mem_cons] at hr
        rcases hr with rfl | hr
        · obtain ⟨a, b, c, d, pr⟩ := r
          obtain ⟨s, hc1, hd1, -⟩ :=
            calc_elo_ok_shape _ _ _ _ _ _ _ _ _ _ _ _ _ _ hc
          simp only [hc1, hd1]
          ring
        · exact ih _ _ h2 r hr

/-- Evaluation of shift_elo_post in log mode when no exception is raised:
the shift is k times the expectation error times the margin multiplier times
the autocorrelation factor, with k resolved from k_start, k_rate and k_end as
in the source. -/
lemma shift_elo_post_formula (diff mov : ℝ) (n1 n2 : ℤ) (cfg : Cfg)
    (ks A M k : ℝ)
    (hks : cfg.k_start = some ks)
    (hA : (cfg.ac_mod = none ∧ A = 1) ∨
      (∃ acm acu, cfg.ac_mod = some acm ∧ cfg.ac_mul = some acu ∧
        (if 0 < mov then diff else if mov = 0 then 0 else -diff) * acu + acm ≠ 0 ∧
        A = acm / ((if 0 < mov then diff else if mov = 0 then 0 else -diff) * acu + acm)))
    (hM : (cfg.mov_mul = none ∧ M = 1) ∨
      (∃ mm md, cfg.mov_mul = some mm ∧ cfg.mov_mod = some md ∧
        M = mm * Real.log (max |mov| 1) + md))
    (hk : (cfg.k_rate = none ∧ k = ks) ∨
      (∃ kr, cfg.k_rate = some kr ∧ ((n1 : ℝ) + (n2 : ℝ)) / 2 ≤ kr ∧ k = ks) ∨
      (∃ kr ke, cfg.k_rate = some kr ∧ cfg.k_end = some ke ∧
        ¬ ((n1 : ℝ) + (n2 : ℝ)) / 2 ≤ kr ∧ k = ke)) :
    shift_elo_post diff mov n1 n2 cfg true =
      .ok (k * ((if 0 < mov then (1 : ℝ) else 0) - elo_probability diff) * M * A) := by
  unfold shift_elo_post
  rcases hA with ⟨hac, rfl⟩ | ⟨acm, acu, hacm, hacu, hden, rfl⟩ <;>
    rcases hM with ⟨hmv, rfl⟩ | ⟨mm, md, hmm, hmd, rfl⟩ <;>
    rcases hk with ⟨hkr, rfl⟩ | ⟨kr, hkr, hle, rfl⟩ | ⟨kr, ke, hkr, hke, hgt, rfl⟩ <;>
    simp only [*, if_true, if_false, ite_true, ite_false]

/-- One fitness evaluation never lowers the tracked best score. -/
lemma fitness_func_best_mono
    (f : List Row → Cfg → Except PyError (List EloRes))
    (m : ModelMeta) (s : Cfg) :
    m.best.score ≤ (fitness_func f m s).1.best.score := by
  cases h : f m.data s with
  | error e => cases e <;> simp [fitness_func, h]
  | ok results =>
    unfold fitness_func
    dsimp only
    rw [h]
    dsimp only
    split
    · rename_i hlt
      exact le_of_lt hlt
    · exact le_refl _

/-- The tracked best score is non-decreasing across any evaluation
sequence. -/
lemma runEvals_best_mono
    (f : List Row → Cfg → Except PyError (List EloRes)) :
    ∀ (cfgs : List Cfg) (m : ModelMeta),
      m.best.score ≤ (runEvals f m cfgs).best.score := by
  intro cfgs
  induction cfgs with
  | nil => intro m; exact le_refl _
  | cons c cs ih =>
    intro m
    exact le_trans (fitness_func_best_mono f m c) (ih (fitness_func f m c).1)

/-- When the returned score does not strictly beat the tracked best, neither
the best scores dict nor the best configuration changes. -/
lemma fitness_func_no_improve
    (f : List Row → Cfg → Except PyError (List EloRes))
    (m : ModelMeta) (s : Cfg)
    (h : ∀ v, (fitness_func f m s).2 = .ok v → ¬ m.best.score < v) :
    (fitness_func f m s).1.best = m.best ∧
    (fitness_func f m s).1.best_config = m.best_config := by
  cases hf : f m.data s with
  | error e => cases e <;> simp [fitness_func, hf]
  | ok results =>
    have hv := h (r2_score (m.data.map Row.win1)
        (results.map fun r => r.2.2.2.2) : WithBot ℝ) ?_
    · constructor <;> simp [fitness_func, hf, if_neg hv]
    · unfold fitness_func
      dsimp only
      rw [hf]
      dsimp only
      split
      · rfl
      · rfl

/-- Every element of arange(low, high, step) with a positive step lies in the
closed interval from low to high. -/
lemma arange_mem_bounds (low high step x : ℚ) (hstep : 0 < step)
    (hx : x ∈ arange low high step) : low ≤ x ∧ x ≤ high := by
  rw [arange] at hx
  obtain ⟨k, hk, hxe⟩ := List.mem_map.mp hx
  rw [List.mem_range] at hk
  subst hxe
  have hk0 : (0 : ℚ) ≤ (k : ℚ) := Nat.cast_nonneg k
  constructor
  · nlinarith
  · unfold arangeLen at hk
    have h1 : ((k : ℤ) : ℚ) < (high - low) / step := by
      rw [← Int.lt_ceil]
      exact Int.lt_toNat.mp hk
    have h1q : (k : ℚ) < (high - low) / step := by exact_mod_cast h1
    have h2 : (k : ℚ) * step < high - low := (lt_div_iff₀ hstep).mp h1q
    linarith

/-! Claim theorems. -/

/-- C5: the win-probability function equals 1 / (10^(-diff/400) + 1) for
every real diff; it satisfies prob1(0) = 0.5, the symmetry
prob1(diff) + prob1(-diff) = 1 for every real diff, and its value is strictly
between 0 and 1 for every input. -/
theorem C5_elo_probability :
    (∀ d : ℝ, elo_probability d = 1 / ((10 : ℝ) ^ (-d / 400) + 1)) ∧
    elo_probability 0 = 1 / 2 ∧
    (∀ d : ℝ, elo_probability d + elo_probability (-d) = 1) ∧
    (∀ d : ℝ, 0 < elo_probability d ∧ elo_probability d < 1) :=
  ⟨fun _ => rfl, elo_probability_zero, elo_probability_symm,
   fun d => ⟨elo_probability_pos d, elo_probability_lt_one d⟩⟩

/-- C8: calc_pre_diff equals (rating1 - rating2), plus hfa_mod when that key
is present and the game is not neutral, plus rest_mul * (rest1 - rest2) when
that key is present; on the concrete example it gives -205 when not neutral
and -215 when neutral. -/
theorem C8_calc_pre_diff :
    (∀ (p1 p2 : ℝ) (r1 r2 : ℤ) (nt : Bool) (cfg : Cfg),
      calc_pre_diff p1 p2 r1 r2 nt cfg =
        p1 - p2 + (if nt = false then cfg.hfa_mod.getD 0 else 0) +
          cfg.rest_mul.getD 0 * ((r1 : ℝ) - (r2 : ℝ))) ∧
    calc_pre_diff 1000 1200 2 5 false cfgHfaRest = -205 ∧
    calc_pre_diff 1000 1200 2 5 true cfgHfaRest = -215 := by
  refine ⟨?_, ?_, ?_⟩
  · intro p1 p2 r1 r2 nt cfg
    rcases cfg with ⟨s, ea, rv, rm, hm, ks, ke, kr, au, am, mm, md⟩
    cases nt <;> cases hm <;> cases rm <;> simp [calc_pre_diff]
  · norm_num [calc_pre_diff, cfgHfaRest]
  · norm_num [calc_pre_diff, cfgHfaRest]

/-- C3: the full pipeline produces a zero-sum update,
post1 - pre1 = -(post2 - pre2), on every successful calc_elo call, and hence
for every result of a season replay. -/
theorem C3_zero_sum :
    (∀ (cfg : Cfg) (p1 p2 : ℝ) (mov : Option ℝ) (n1 n2 r1 r2 : ℤ) (nt : Bool)
       (a b c d pr : ℝ),
      calc_elo cfg p1 p2 mov n1 n2 r1 r2 nt = .ok (a, b, c, d, pr) →
      c - a = -(d - b)) ∧
    (∀ (df : List Row) (cfg : Cfg) (rs : List EloRes),
      enrich_elo df cfg = .ok rs →
      ∀ r ∈ rs, r.2.2.1 - r.1 = -(r.2.2.2.1 - r.2.1)) := by
  constructor
  · intro cfg p1 p2 mov n1 n2 r1 r2 nt a b c d pr h
    obtain ⟨s, hc, hd, -⟩ := calc_elo_ok_shape _ _ _ _ _ _ _ _ _ _ _ _ _ _ h
    rw [hc, hd]
    ring
  · intro df cfg rs h r hr
    rw [enrich_elo_eq_vec] at h
    unfold enrich_elo_vec at h
    cases hs : cfg.start with
    | none =>
      rw [hs] at h
      exact absurd h (by simp)
    | some s0 =>
      rw [hs] at h
      exact enrichLoop_zero_sum cfg df _ rs h r hr

/-- C3 witness: the zero-sum theorem applied to a concrete tied match between
two teams rated 1000 and 900. -/
theorem C3_zero_sum_witness : (1000 : ℝ) - 1000 = -((900 : ℝ) - 900) :=
  C3_zero_sum.1 cfgNone 1000 900 (some 0) 1 1 0 0 true 1000 900 1000 900
    (elo_probability 100)
    (by norm_num [calc_elo, shift_elo_pre, calc_pre_diff, cfgNone])

/-- C4: when the margin is zero or not-a-number, the full pipeline applies a
zero post-match shift, so each post-match rating equals the corresponding
shift-adjusted pre-match rating. -/
theorem C4_degenerate_margin :
    ∀ (cfg : Cfg) (p1 p2 : ℝ) (mov : Option ℝ) (n1 n2 r1 r2 : ℤ) (nt : Bool)
      (a b c d pr : ℝ),
      (mov = none ∨ mov = some 0) →
      calc_elo cfg p1 p2 mov n1 n2 r1 r2 nt = .ok (a, b, c, d, pr) →
      c = a ∧ d = b := by
  intro cfg p1 p2 mov n1 n2 r1 r2 nt a b c d pr hmov h
  obtain ⟨s, hc, hd, hz⟩ := calc_elo_ok_shape _ _ _ _ _ _ _ _ _ _ _ _ _ _ h
  rw [hz hmov] at hc hd
  constructor
  · rw [hc]
    ring
  · rw [hd]
    ring

/-- C4 witness: the degenerate-margin theorem applied to a concrete match
with a NaN margin between teams rated 1200 and 1100. -/
theorem C4_degenerate_margin_witness :
    (1200 : ℝ) = 1200 ∧ (1100 : ℝ) = 1100 :=
  C4_degenerate_margin cfgNone 1200 1100 none 1 1 0 0 true 1200 1100 1200 1100
    (elo_probability 100) (Or.inl rfl)
    (by norm_num [calc_elo, shift_elo_pre, calc_pre_diff, cfgNone])

/-- C10: the accumulate-based replay and the plain-loop replay return
identical result sequences (or raise the same exception) on every dataset and
configuration. -/
theorem C10_enrich_equiv :
    ∀ (df : List Row) (cfg : Cfg), enrich_elo df cfg = enrich_elo_vec df cfg :=
  enrich_elo_eq_vec

/-- C6: the K-factor is k_start when k_rate is present and
(games1 + games2)/2 <= k_rate, k_end when k_rate is present and the average
exceeds k_rate, and always k_start when k_rate is absent; the returned shift
equals k * expectation_error * mov_mult * ac.  In particular
shift_post(diff = 0, margin = 3, games1 = 0, games2 = 0, cfg = k_start 10)
is 5. -/
theorem C6_shift_elo_post :
    (∀ (diff mov : ℝ) (n1 n2 : ℤ) (cfg : Cfg) (ks A M : ℝ),
      cfg.k_start = some ks →
      ((cfg.ac_mod = none ∧ A = 1) ∨
        (∃ acm acu, cfg.ac_mod = some acm ∧ cfg.ac_mul = some acu ∧
          (if 0 < mov then diff else if mov = 0 then 0 else -diff) * acu + acm ≠ 0 ∧
          A = acm / ((if 0 < mov then diff else if mov = 0 then 0 else -diff) * acu + acm))) →
      ((cfg.mov_mul = none ∧ M = 1) ∨
        (∃ mm md, cfg.mov_mul = some mm ∧ cfg.mov_mod = some md ∧
          M = mm * Real.log (max |mov| 1) + md)) →
      ((cfg.k_rate = none →
        shift_elo_post diff mov n1 n2 cfg true =
          .ok (ks * ((if 0 < mov then (1 : ℝ) else 0) - elo_probability diff) * M * A)) ∧
       (∀ kr, cfg.k_rate = some kr → ((n1 : ℝ) + (n2 : ℝ)) / 2 ≤ kr →
        shift_elo_post diff mov n1 n2 cfg true =
          .ok (ks * ((if 0 < mov then (1 : ℝ) else 0) - elo_probability diff) * M * A)) ∧
       (∀ kr ke, cfg.k_rate = some kr → cfg.k_end = some ke →
        ¬ ((n1 : ℝ) + (n2 : ℝ)) / 2 ≤ kr →
        shift_elo_post diff mov n1 n2 cfg true =
          .ok (ke * ((if 0 < mov then (1 : ℝ) else 0) - elo_probability diff) * M * A)))) ∧
    shift_elo_post 0 3 0 0 cfgK10 true = .ok 5 := by
  constructor
  · intro diff mov n1 n2 cfg ks A M hks hA hM
    refine ⟨?_, ?_, ?_⟩
    · intro hkr
      exact shift_elo_post_formula diff mov n1 n2 cfg ks A M ks hks hA hM
        (Or.inl ⟨hkr, rfl⟩)
    · intro kr hkr hle
      exact shift_elo_post_formula diff mov n1 n2 cfg ks A M ks hks hA hM
        (Or.inr (Or.inl ⟨kr, hkr, hle, rfl⟩))
    · intro kr ke hkr hke hgt
      exact shift_elo_post_formula diff mov n1 n2 cfg ks A M ke hks hA hM
        (Or.inr (Or.inr ⟨kr, ke, hkr, hke, hgt, rfl⟩))
  · have h := shift_elo_post_formula 0 3 0 0 cfgK10 10 1 1 10 rfl
      (Or.inl ⟨rfl, rfl⟩) (Or.inl ⟨rfl, rfl⟩) (Or.inl ⟨rfl, rfl⟩)
    rw [h]
    norm_num [elo_probability_zero]

/-- C6 witness: the K-factor theorem applied to the documented concrete
example, diff 0, margin 3, no games played, k_start 10 with k_rate absent. -/
theorem C6_shift_elo_post_witness :
    shift_elo_post 0 3 0 0 cfgK10 true =
      .ok (10 * ((if (0 : ℝ) < 3 then (1 : ℝ) else 0) - elo_probability 0) * 1 * 1) :=
  (C6_shift_elo_post.1 0 3 0 0 cfgK10 10 1 1 rfl
    (Or.inl ⟨rfl, rfl⟩) (Or.inl ⟨rfl, rfl⟩)).1 rfl

/-- C1 counterexample: on the one-match dataset df1, the configuration
cfgBad drives the autocorrelation denominator winner_diff*ac_mul + ac_mod to
(-1)*1 + 1 = 0, so the replay raises ZeroDivisionError — a domain error —
and the fitness evaluation propagates it instead of returning the worst
possible score, because the source catches only OverflowError. -/
theorem C1_counterexample :
    enrich_elo df1 cfgBad = .error .zeroDivisionError ∧
    (fitness_func enrich_elo model0 cfgBad).2 = .error .zeroDivisionError := by
  have h : enrich_elo df1 cfgBad = .error .zeroDivisionError := by
    norm_num [enrich_elo, accumulateElo, stateful_enricher, calc_elo,
      shift_elo_pre, calc_pre_diff, shift_elo_post, fsub, df1, cfgBad,
      bogeyRow]
  refine ⟨h, ?_⟩
  simp [fitness_func, model0, h]

/-- C1 amended: only OverflowError raised by the replay is converted into the
worst possible score (negative infinity); any other exception raised by the
replay — including the ZeroDivisionError of a zero autocorrelation
denominator — propagates out of the fitness evaluation. -/
theorem C1_fitness_amended :
    ∀ (model : ModelMeta) (sol : Cfg)
      (f : List Row → Cfg → Except PyError (List EloRes)),
      (f model.data sol = .error .overflowError →
        (fitness_func f model sol).2 = .ok ⊥) ∧
      (∀ e : PyError, e ≠ .overflowError → f model.data sol = .error e →
        (fitness_func f model sol).2 = .error e) := by
  intro model sol f
  constructor
  · intro h
    simp [fitness_func, h]
  · intro e he h
    cases e
    · exact absurd rfl he
    all_goals simp [fitness_func, h]

/-- C1 witness: the amended theorem applied to a forecaster raising
OverflowError (score becomes negative infinity) and one raising KeyError
(the exception propagates). -/
theorem C1_fitness_amended_witness :
    (fitness_func (fun _ _ => Except.error PyError.overflowError) model0
      cfgBad).2 = Except.ok ⊥ ∧
    (fitness_func (fun _ _ => Except.error PyError.keyError) model0
      cfgBad).2 = Except.error PyError.keyError :=
  ⟨(C1_fitness_amended model0 cfgBad _).1 rfl,
   (C1_fitness_amended model0 cfgBad _).2 PyError.keyError (by decide) rfl⟩

/-- C7: the recorded best (scores dict and configuration) is replaced only
when an evaluation's score is strictly greater than the best score seen so
far — a tie or worse never replaces it — and consequently the tracked best
score is non-decreasing over any sequence of evaluations. -/
theorem C7_best_tracking :
    (∀ (f : List Row → Cfg → Except PyError (List EloRes))
       (m : ModelMeta) (s : Cfg),
      (∀ v, (fitness_func f m s).2 = .ok v → ¬ m.best.score < v) →
      (fitness_func f m s).1.best = m.best ∧
      (fitness_func f m s).1.best_config = m.best_config) ∧
    (∀ (f : List Row → Cfg → Except PyError (List EloRes))
       (m : ModelMeta) (cfgs : List Cfg),
      m.best.score ≤ (runEvals f m cfgs).best.score) :=
  ⟨fitness_func_no_improve, fun f m cfgs => runEvals_best_mono f cfgs m⟩

/-- C7 witness: the no-improvement half applied to a concrete forecaster that
raises OverflowError, whose evaluation scores negative infinity and leaves
the recorded best of model0 unchanged. -/
theorem C7_best_tracking_witness :
    (fitness_func (fun _ _ => Except.error PyError.overflowError) model0
      cfgK10).1.best = model0.best ∧
    (fitness_func (fun _ _ => Except.error PyError.overflowError) model0
      cfgK10).1.best_config = model0.best_config := by
  refine C7_best_tracking.1 _ model0 cfgK10 ?_
  intro v hv
  simp only [fitness_func, model0] at hv
  rw [Except.ok.injEq] at hv
  rw [← hv]
  exact not_lt_bot

/-- C9: for every declared hyperparameter range, every candidate value of the
discretized set numpy.arange(low, high, step) that random_optimize draws from
lies within the closed interval from low to high. -/
theorem C9_proposals_in_bounds :
    ∀ sp ∈ paramSpaces, ∀ x ∈ arange sp.low sp.high sp.step,
      sp.low ≤ x ∧ x ≤ sp.high := by
  intro sp hsp x hx
  have hstep : 0 < sp.step := by
    simp only [paramSpaces, List.mem_cons, List.not_mem_nil, or_false] at hsp
    rcases hsp with rfl | rfl | rfl | rfl | rfl | rfl | rfl | rfl | rfl |
      rfl | rfl | rfl <;> norm_num
  exact arange_mem_bounds sp.low sp.high sp.step x hstep hx

/-- C9 witness: the bounds theorem applied to the starting-elo range and its
first candidate value 800. -/
theorem C9_proposals_in_bounds_witness :
    (800 : ℚ) ≤ 800 ∧ (800 : ℚ) ≤ 1500 := by
  refine C9_proposals_in_bounds ⟨800, 1500, 5⟩ ?_ 800 ?_
  · simp [paramSpaces]
  · rw [arange]
    refine List.mem_map.mpr ⟨0, ?_, by norm_num⟩
    rw [List.mem_range]
    unfold arangeLen
    norm_num

/-- C2 counterexample: with games_played = 0 and a cfg holding elo_avg but
not revert, shift_elo_pre raises KeyError instead of returning 0; and with
games_played = None it raises TypeError instead of returning 0. -/
theorem C2_counterexample :
    shift_elo_pre 1000 (some 0) cfgRevMissing ≠ Except.ok 0 ∧
    shift_elo_pre 1000 none cfgPre ≠ Except.ok 0 := by
  constructor <;> simp [shift_elo_pre, cfgRevMissing, cfgPre]

/-- C2 amended: shift_elo_pre returns 0 whenever games_played > 0; passing
games_played = None raises TypeError (the condition `n > 0` is evaluated on
None first); when games_played = 0 and both elo_avg and revert are present it
returns (elo_avg*revert + rating*(1-revert)) - rating; when games_played = 0
and elo_avg is absent it returns 0; when games_played = 0 with elo_avg
present but revert absent it raises KeyError. -/
theorem C2_shift_elo_pre_amended :
    ∀ (rating : ℝ) (cfg : Cfg) (n : ℤ),
      (0 < n → shift_elo_pre rating (some n) cfg = .ok 0) ∧
      shift_elo_pre rating none cfg = .error .typeError ∧
      (∀ avg rv, cfg.elo_avg = some avg → cfg.revert = some rv →
        shift_elo_pre rating (some 0) cfg =
          .ok ((avg * rv + rating * (1 - rv)) - rating)) ∧
      (cfg.elo_avg = none → shift_elo_pre rating (some 0) cfg = .ok 0) ∧
      (∀ avg, cfg.elo_avg = some avg → cfg.revert = none →
        shift_elo_pre rating (some 0) cfg = .error .keyError) := by
  intro rating cfg n
  refine ⟨?_, rfl, ?_, ?_, ?_⟩
  · intro hn
    simp [shift_elo_pre, hn]
  · intro avg rv h1 h2
    simp [shift_elo_pre, h1, h2]
  · intro h1
    simp [shift_elo_pre, h1]
  · intro avg h1 h2
    simp [shift_elo_pre, h1, h2]

/-- C2 witness: the amended theorem applied to the documented example,
rating 2000, games_played 0, elo_avg 1000, revert one half, giving -500. -/
theorem C2_amended_witness :
    shift_elo_pre 2000 (some 0) cfgPre = Except.ok (-500) := by
  have h := (C2_shift_elo_pre_amended 2000 cfgPre 1).2.2.1 1000 (1 / 2) rfl rfl
  rw [h]
  norm_num

end Mrelo
